import Mathlib

/-!
Verification development for `nfl_odds_api.py` (Mora-Bets).

The module is a REST client for an odds-data provider plus a small
rule-based classifier.  We embed the pure content of the module:
market-name normalization, the error discipline of the three fetch
functions (modelling the HTTP response as an explicit input), and the
environment-map builder (totals/moneyline extraction loops, favored-team
selection, Variant B classification, top-level exception swallowing).

Conventions of the embedding:
* A Python value that may be `None` is an `Option`.
* `os.getenv("ODDS_API_KEY")` is a parameter `key : Option String`
  (`none` = unset); Python truthiness `not ODDS_API_KEY` is `keyMissing`.
* An HTTP response is an `ApiResponse` oracle passed to each fetch
  function: `status`, the parsed games payload used by `resp.json()` on
  success, `errJson` (the parseable JSON error body, `none` when the body
  does not parse) and the raw `text`.
* Each fetch function returns its `Except` result paired with a `Bool`
  that is `true` exactly when control reached the `requests.get` line.
* A Python `TypeError` from comparing `None` with an int is `Except.error ()`.
-/

/-- `MARKET_ALIASES` dict: common aliases -> official keys. -/
def MARKET_ALIASES : List (String × String) :=
  [("player_rec_yds", "player_receiving_yds"),
   ("player_rec", "player_receptions"),
   ("receptions", "player_receptions"),
   ("receiving_yds", "player_receiving_yds"),
   ("rush_yds", "player_rush_yds"),
   ("pass_yds", "player_pass_yds")]

/-- `VALID_PLAYER_MARKETS` set (membership is all that matters). -/
def VALID_PLAYER_MARKETS : List String :=
  ["player_anytime_td",
   "player_first_td",
   "player_pass_yds",
   "player_pass_tds",
   "player_pass_interceptions",
   "player_rush_yds",
   "player_rush_attempts",
   "player_receptions",
   "player_receiving_yds",
   "player_field_goals"]

/-- Python `sorted(VALID_PLAYER_MARKETS)`: the whitelist in lexicographic
order, as it appears in the `ValueError` message. -/
def sortedValidMarkets : List String :=
  ["player_anytime_td",
   "player_field_goals",
   "player_first_td",
   "player_pass_interceptions",
   "player_pass_tds",
   "player_pass_yds",
   "player_receiving_yds",
   "player_receptions",
   "player_rush_attempts",
   "player_rush_yds"]

/-- Python `str.strip()`: drop leading and trailing whitespace. -/
def pyStrip (s : String) : String :=
  ⟨((s.data.dropWhile Char.isWhitespace).reverse.dropWhile Char.isWhitespace).reverse⟩

/-- Body of the loop in `_normalize_markets`: `m = m.strip()` followed by
`m = MARKET_ALIASES.get(m, m)`. -/
def resolveMarket (m : String) : String :=
  let t := pyStrip m
  (MARKET_ALIASES.lookup t).getD t

/-- The `ValueError` message of `_normalize_markets`:
`f"Unsupported market: \x7bm\x7d. Valid: \x7bsorted(VALID_PLAYER_MARKETS)\x7d"`. -/
def unsupportedMsg (m : String) : String :=
  "Unsupported market: " ++ m ++ ". Valid: [" ++
    String.intercalate ", " sortedValidMarkets ++ "]"

/-- First loop of `_normalize_markets`: strip, alias-resolve and validate
each requested market left to right, raising at the first invalid name. -/
def normalizeLoop : List String → Except String (List String)
  | [] => .ok []
  | m :: rest =>
    let m := resolveMarket m
    if m ∈ VALID_PLAYER_MARKETS then
      match normalizeLoop rest with
      | .ok tail => .ok (m :: tail)
      | .error e => .error e
    else .error (unsupportedMsg m)

/-- Second loop of `_normalize_markets`: de-dupe preserving order with a
`seen` set. -/
def dedupeFirst (seen : List String) : List String → List String
  | [] => []
  | m :: rest =>
    if m ∈ seen then dedupeFirst seen rest
    else m :: dedupeFirst (m :: seen) rest

/-- `_normalize_markets`. -/
def normalize_markets (markets : List String) : Except String (List String) :=
  match normalizeLoop markets with
  | .ok norm => .ok (dedupeFirst [] norm)
  | .error e => .error e

/-- Spec-side description of de-duplication: keep the first occurrence of
each name, drop every later duplicate. -/
def keepFirsts : List String → List String
  | [] => []
  | x :: xs => x :: (keepFirsts xs).filter (fun y => y ≠ x)

/-! ## The fetch layer -/

/-- The exceptions raised by the fetch functions: `EnvironmentError` for a
missing key, `ValueError` from `_normalize_markets`, `RuntimeError` for a
bad HTTP status (carrying the status code and the provider error detail). -/
inductive FetchError where
  | configError (msg : String)
  | valueError (msg : String)
  | httpError (status : Nat) (detail : String)
deriving DecidableEq, Repr

/-- One JSON outcome object: `name`, and the optional `price` / `point`
fields read with `outcome.get(..., 0)`. -/
structure Outcome where
  name : String
  price : Option Int
  point : Option ℚ
deriving DecidableEq, Repr

/-- One JSON market object: `key` and its `outcomes`. -/
structure Market where
  key : String
  outcomes : List Outcome
deriving DecidableEq, Repr

/-- One JSON bookmaker object (only `markets` is read). -/
structure Bookmaker where
  markets : List Market
deriving DecidableEq, Repr

/-- One JSON event object as read by the classifier: `away_team`,
`home_team` and `bookmakers`. -/
structure Game where
  away_team : String
  home_team : String
  bookmakers : List Bookmaker
deriving DecidableEq, Repr

/-- The HTTP response oracle for one `requests.get` call: `status`, the
parsed games payload returned by `resp.json()` on success, the parseable
JSON error body (`none` when `resp.json()` raises) and the raw text. -/
structure ApiResponse where
  status : Nat
  games : List Game
  errJson : Option String
  text : String
deriving DecidableEq, Repr

/-- The error detail attached to a `RuntimeError`:
`msg = resp.json()` when the body parses, else `msg = resp.text`. -/
def respDetail (r : ApiResponse) : String :=
  r.errJson.getD r.text

/-- Python truthiness of `not ODDS_API_KEY`: the key is unset or empty. -/
def keyMissing : Option String → Bool
  | none => true
  | some s => s.isEmpty

/-- The `EnvironmentError` message. -/
def envKeyMsg : String :=
  "ODDS_API_KEY is not set. Please set it in your environment."

/-- Default markets of `fetch_nfl_props`. -/
def defaultMarkets : List String :=
  ["player_pass_yds", "player_rush_yds", "player_receiving_yds", "player_receptions"]

/-- `fetch_nfl_props`.  Query parameters that only shape the request URL
(`regions`, `bookmakers`, `odds_format`, `date_format`, `event_ids`,
`timeout`) are not modelled; the response is the `r` oracle.  The `Bool`
is `true` exactly when control reached `requests.get`. -/
def fetch_nfl_props (key : Option String) (markets : Option (List String))
    (r : ApiResponse) : Except FetchError (List Game) × Bool :=
  if keyMissing key then (.error (.configError envKeyMsg), false)
  else
    let ms := markets.getD defaultMarkets
    match normalize_markets ms with
    | .error e => (.error (.valueError e), false)
    | .ok _ =>
      if r.status ≠ 200 then (.error (.httpError r.status (respDetail r)), true)
      else (.ok r.games, true)

/-- `get_nfl_game_totals`. -/
def get_nfl_game_totals (key : Option String) (r : ApiResponse) :
    Except FetchError (List Game) × Bool :=
  if keyMissing key then (.error (.configError envKeyMsg), false)
  else if r.status ≠ 200 then (.error (.httpError r.status (respDetail r)), true)
  else (.ok r.games, true)

/-- `get_nfl_moneylines`. -/
def get_nfl_moneylines (key : Option String) (r : ApiResponse) :
    Except FetchError (List Game) × Bool :=
  if keyMissing key then (.error (.configError envKeyMsg), false)
  else if r.status ≠ 200 then (.error (.httpError r.status (respDetail r)), true)
  else (.ok r.games, true)

/-! ## The environment-map builder -/

/-- Python dict assignment `d[k] = v` on an insertion-ordered assoc list:
replace in place when the key exists, else append. -/
def insertEntry {α : Type} (l : List (String × α)) (k : String) (v : α) :
    List (String × α) :=
  if l.any (fun p => p.1 = k) then
    l.map (fun p => if p.1 = k then (k, v) else p)
  else l ++ [(k, v)]

/-- Mutable locals of the totals-extraction loops
(`total_point`, `over_odds`, `under_odds`), all starting at `None`. -/
structure TotState where
  total_point : Option ℚ
  over_odds : Option Int
  under_odds : Option Int
deriving DecidableEq, Repr

/-- Innermost totals loop over `market.get('outcomes', [])`:
an `Over` outcome sets `total_point = outcome.get('point', 0)` and
`over_odds = outcome.get('price', 0)`; an `Under` outcome sets
`under_odds = outcome.get('price', 0)`. -/
def totOutcomesLoop (s : TotState) : List Outcome → TotState
  | [] => s
  | o :: rest =>
    if o.name = "Over" then
      totOutcomesLoop { s with total_point := some (o.point.getD 0),
                               over_odds := some (o.price.getD 0) } rest
    else if o.name = "Under" then
      totOutcomesLoop { s with under_odds := some (o.price.getD 0) } rest
    else totOutcomesLoop s rest

/-- Totals loop over `bookmaker.get('markets', [])`: process the first
market with `key == 'totals'` and `break`. -/
def totMarketsLoop (s : TotState) : List Market → TotState
  | [] => s
  | m :: rest =>
    if m.key = "totals" then totOutcomesLoop s m.outcomes
    else totMarketsLoop s rest

/-- Totals loop over `game.get('bookmakers', [])`: after each bookmaker,
`break` once `total_point is not None`. -/
def totBookmakersLoop (s : TotState) : List Bookmaker → TotState
  | [] => s
  | b :: rest =>
    let s' := totMarketsLoop s b.markets
    if s'.total_point.isSome then s' else totBookmakersLoop s' rest

/-- One `totals_lookup[matchup]` value. -/
structure TotalsEntry where
  total : ℚ
  over_odds : Option Int
  under_odds : Option Int
deriving DecidableEq, Repr

/-- Body of the totals-processing loop for one game. -/
def totStep (acc : List (String × TotalsEntry)) (game : Game) :
    List (String × TotalsEntry) :=
  let matchup := game.away_team ++ " @ " ++ game.home_team
  let s := totBookmakersLoop ⟨none, none, none⟩ game.bookmakers
  match s.total_point with
  | some t => insertEntry acc matchup ⟨t, s.over_odds, s.under_odds⟩
  | none => acc

/-- `totals_lookup` built from the totals payload. -/
def totalsLookup (games : List Game) : List (String × TotalsEntry) :=
  games.foldl totStep []

/-- Mutable locals of the moneyline-extraction loops
(`away_odds`, `home_odds`), both starting at `None`. -/
structure MLState where
  away_odds : Option Int
  home_odds : Option Int
deriving DecidableEq, Repr

/-- Innermost moneyline loop over outcomes: a side matching the away
(resp. home) team name sets `away_odds` (resp. `home_odds`) to
`outcome.get('price', 0)`. -/
def mlOutcomesLoop (away home : String) (s : MLState) : List Outcome → MLState
  | [] => s
  | o :: rest =>
    if o.name = away then
      mlOutcomesLoop away home { s with away_odds := some (o.price.getD 0) } rest
    else if o.name = home then
      mlOutcomesLoop away home { s with home_odds := some (o.price.getD 0) } rest
    else mlOutcomesLoop away home s rest

/-- Moneyline loop over markets: process the first market with
`key == 'h2h'` and `break`. -/
def mlMarketsLoop (away home : String) (s : MLState) : List Market → MLState
  | [] => s
  | m :: rest =>
    if m.key = "h2h" then mlOutcomesLoop away home s m.outcomes
    else mlMarketsLoop away home s rest

/-- Moneyline loop over bookmakers: after each bookmaker, `break` once
both prices are set. -/
def mlBookmakersLoop (away home : String) (s : MLState) : List Bookmaker → MLState
  | [] => s
  | b :: rest =>
    let s' := mlMarketsLoop away home s b.markets
    if s'.away_odds.isSome && s'.home_odds.isSome then s'
    else mlBookmakersLoop away home s' rest

/-- One `moneylines_lookup[matchup]` value. -/
structure MoneylineInfo where
  away_team : String
  home_team : String
  favored_team : String
  away_odds : Int
  home_odds : Int
deriving DecidableEq, Repr

/-- Body of the moneyline-processing loop for one game: when both prices
are present, the favored team is the home team iff
`home_odds < away_odds` (lower American odds = favored). -/
def mlStep (acc : List (String × MoneylineInfo)) (game : Game) :
    List (String × MoneylineInfo) :=
  match mlBookmakersLoop game.away_team game.home_team ⟨none, none⟩ game.bookmakers with
  | ⟨some a, some h⟩ =>
    insertEntry acc (game.away_team ++ " @ " ++ game.home_team)
      { away_team := game.away_team, home_team := game.home_team,
        favored_team := if h < a then game.home_team else game.away_team,
        away_odds := a, home_odds := h }
  | _ => acc

/-- `moneylines_lookup` built from the h2h payload. -/
def moneylinesLookup (games : List Game) : List (String × MoneylineInfo) :=
  games.foldl mlStep []

/-- One record of the returned environment map. -/
structure EnvRecord where
  environment : String
  total : ℚ
  over_odds : Option Int
  under_odds : Option Int
  moneyline : Option MoneylineInfo
deriving DecidableEq, Repr

/-- The classification branch of the final loop, compiled from the Python
`if`/`elif` structure with its left-to-right short-circuit evaluation.
`total`, `over` and `under` are the values of the locals `total_point`,
`over_odds` and `under_odds` after the `totals_info.get(..., 0)` reads.
Comparing `None` with an int raises `TypeError`, which is
`Except.error ()`. -/
def classifyVals (total : ℚ) (over under : Option Int)
    (mi : Option MoneylineInfo) : Except Unit EnvRecord :=
  if total ≥ 50 then .ok ⟨"High Scoring", total, over, under, mi⟩
  else match over with
    | none => .error ()
    | some ov =>
      if ov ≤ -115 ∧ total ≥ 47 then .ok ⟨"High Scoring", total, over, under, mi⟩
      else if total ≤ 42 then .ok ⟨"Low Scoring", total, over, under, mi⟩
      else match under with
        | none => .error ()
        | some un =>
          if un ≤ -115 ∧ total ≤ 45 then .ok ⟨"Low Scoring", total, over, under, mi⟩
          else .ok ⟨"Neutral", total, over, under, mi⟩

/-- Classification of one matchup.  `totals_info.get(..., 0)` yields `0`
when the matchup has no totals entry, and the stored value (possibly
`None`) when it has one. -/
def classifyMatchup (ti : Option TotalsEntry) (mi : Option MoneylineInfo) :
    Except Unit EnvRecord :=
  classifyVals
    (match ti with | some e => e.total | none => 0)
    (match ti with | some e => e.over_odds | none => some 0)
    (match ti with | some e => e.under_odds | none => some 0)
    mi

/-- The final loop over the union of the two key sets, building one record
per matchup; any `TypeError` aborts the whole build. -/
def envMapLoop (tl : List (String × TotalsEntry))
    (ml : List (String × MoneylineInfo)) :
    List String → Except Unit (List (String × EnvRecord))
  | [] => .ok []
  | k :: rest =>
    match classifyMatchup (tl.lookup k) (ml.lookup k) with
    | .error e => .error e
    | .ok r =>
      match envMapLoop tl ml rest with
      | .error e => .error e
      | .ok tail => .ok ((k, r) :: tail)

/-- The `try` block of `get_nfl_game_environment_map`: the two data pulls
followed by the merge-and-classify loop.  Any raised exception (config
error, HTTP error, or `TypeError` during classification) is `Except.error`. -/
def buildEnvironmentMap (key : Option String) (tr mr : ApiResponse) :
    Except Unit (List (String × EnvRecord)) :=
  match (get_nfl_game_totals key tr).1 with
  | .error _ => .error ()
  | .ok totals_data =>
    match (get_nfl_moneylines key mr).1 with
    | .error _ => .error ()
    | .ok moneylines_data =>
      let tl := totalsLookup totals_data
      let ml := moneylinesLookup moneylines_data
      envMapLoop tl ml (dedupeFirst [] (tl.map Prod.fst ++ ml.map Prod.fst))

/-- `get_nfl_game_environment_map`: the top-level `except` swallows every
exception and returns the empty map. -/
def get_nfl_game_environment_map (key : Option String) (tr mr : ApiResponse) :
    List (String × EnvRecord) :=
  match buildEnvironmentMap key tr mr with
  | .ok m => m
  | .error _ => []

/-! ## Spec-side classification policies -/

/-- Spec-side reading of an odds comparison when the price may be absent:
an absent price never satisfies the threshold. -/
def specOddsLe (p : Option Int) (c : Int) : Bool :=
  match p with
  | some v => v ≤ c
  | none => false

/-- The spec's Variant B rule, stated from its words: "High Scoring" if
total ≥ 50 or (Over-price ≤ -115 and total ≥ 47); else "Low Scoring" if
total ≤ 42 or (Under-price ≤ -115 and total ≤ 45); else "Neutral". -/
def classify_environment_variantB (total : ℚ) (over under : Option Int) : String :=
  if total ≥ 50 ∨ (specOddsLe over (-115) ∧ total ≥ 47) then "High Scoring"
  else if total ≤ 42 ∨ (specOddsLe under (-115) ∧ total ≤ 45) then "Low Scoring"
  else "Neutral"

/-- Modelled from the spec: the Variant A classification policy lives in a
fetch path of this repository that is not under `src/`; the spec states it
as "High if total ≥ 47.5 and Over-price ≤ Under-price; Low if
total ≤ 41.5 and Under-price ≤ Over-price; else Neutral". -/
def classify_environment_variantA (total : ℚ) (over under : Int) : String :=
  if total ≥ (95 : ℚ) / 2 ∧ over ≤ under then "High"
  else if total ≤ (83 : ℚ) / 2 ∧ under ≤ over then "Low"
  else "Neutral"

deriving instance DecidableEq for Except

/-! ## Concrete inputs used to exercise the embedding -/

/-- A totals payload event: one bookmaker quoting `totals` at 51 points,
both sides priced -110. -/
def sampleTotalsGame : Game :=
  ⟨"Buffalo Bills", "Kansas City Chiefs",
    [⟨[⟨"totals", [⟨"Over", some (-110), some 51⟩, ⟨"Under", some (-110), some 51⟩]⟩]⟩]⟩

/-- An h2h payload event: away priced +130, home priced -150. -/
def sampleMoneylineGame : Game :=
  ⟨"Buffalo Bills", "Kansas City Chiefs",
    [⟨[⟨"h2h", [⟨"Buffalo Bills", some 130, none⟩,
                ⟨"Kansas City Chiefs", some (-150), none⟩]⟩]⟩]⟩

/-- The matchup key of the sample games. -/
def sampleMatchup : String := "Buffalo Bills @ Kansas City Chiefs"

/-- The moneyline entry extracted from `sampleMoneylineGame`. -/
def sampleMLInfo : MoneylineInfo :=
  ⟨"Buffalo Bills", "Kansas City Chiefs", "Kansas City Chiefs", 130, -150⟩

/-- Successful totals response. -/
def respTotalsOk : ApiResponse := ⟨200, [sampleTotalsGame], none, ""⟩

/-- Successful moneylines response. -/
def respMoneylineOk : ApiResponse := ⟨200, [sampleMoneylineGame], none, ""⟩

/-- Successful response carrying no events. -/
def respNoGames : ApiResponse := ⟨200, [], none, ""⟩

/-- A 404 response whose body does not parse as JSON. -/
def respNotFound : ApiResponse := ⟨404, [], none, "Not Found"⟩

/-- A 201 response: inside the 2xx range but different from 200. -/
def respCreated : ApiResponse := ⟨201, [], some "created detail", "raw created"⟩

/-- The environment record built for the sample games. -/
def sampleHighRecord : EnvRecord :=
  ⟨"High Scoring", 51, some (-110), some (-110), some sampleMLInfo⟩

/-- The environment record built for a moneyline-only matchup: all totals
fields default to zero. -/
def sampleDefaultRecord : EnvRecord :=
  ⟨"Low Scoring", 0, some 0, some 0, some sampleMLInfo⟩

/-! ## Lemmas on market normalization -/

/-- Every valid market name is a fixed point of strip-and-alias resolution. -/
lemma resolveMarket_fixed : ∀ m ∈ VALID_PLAYER_MARKETS, resolveMarket m = m := by
  decide

/-- When every requested name resolves to a valid key, the validation loop
returns the resolved names in order. -/
lemma normalizeLoop_ok_of_valid (ms : List String)
    (h : ∀ m ∈ ms, resolveMarket m ∈ VALID_PLAYER_MARKETS) :
    normalizeLoop ms = .ok (ms.map resolveMarket) := by
  induction ms with
  | nil => rfl
  | cons m rest ih =>
    have hm : resolveMarket m ∈ VALID_PLAYER_MARKETS := h m (by simp)
    have hrest := ih (fun x hx => h x (by simp [hx]))
    simp [normalizeLoop, hm, hrest]

/-- Names surviving the validation loop are valid keys. -/
lemma normalizeLoop_mem_valid :
    ∀ ms norm, normalizeLoop ms = .ok norm →
      ∀ m ∈ norm, m ∈ VALID_PLAYER_MARKETS := by
  intro ms
  induction ms with
  | nil =>
    intro norm h m hm
    simp only [normalizeLoop] at h
    cases h
    simp at hm
  | cons a rest ih =>
    intro norm h m hm
    simp only [normalizeLoop] at h
    by_cases hv : resolveMarket a ∈ VALID_PLAYER_MARKETS
    · rw [if_pos hv] at h
      cases htail : normalizeLoop rest with
      | error e => rw [htail] at h; cases h
      | ok tail =>
        rw [htail] at h
        cases h
        rcases List.mem_cons.mp hm with h1 | h1
        · rw [h1]; exact hv
        · exact ih tail htail m h1
    · rw [if_neg hv] at h
      cases h

/-- A request containing an invalid name makes the validation loop raise
`ValueError` at its first invalid name. -/
lemma normalizeLoop_error_of_bad :
    ∀ ms, (∃ m ∈ ms, resolveMarket m ∉ VALID_PLAYER_MARKETS) →
      ∃ b ∈ ms, resolveMarket b ∉ VALID_PLAYER_MARKETS ∧
        normalizeLoop ms = .error (unsupportedMsg (resolveMarket b)) := by
  intro ms
  induction ms with
  | nil => rintro ⟨m, hm, -⟩; simp at hm
  | cons a rest ih =>
    rintro ⟨m, hm, hbad⟩
    by_cases hv : resolveMarket a ∈ VALID_PLAYER_MARKETS
    · have hmr : m ∈ rest := by
        rcases List.mem_cons.mp hm with h1 | h1
        · exact absurd (h1 ▸ hv) hbad
        · exact h1
      obtain ⟨b, hb, hnb, herr⟩ := ih ⟨m, hmr, hbad⟩
      exact ⟨b, List.mem_cons_of_mem _ hb, hnb, by simp [normalizeLoop, hv, herr]⟩
    · exact ⟨a, by simp, hv, by simp [normalizeLoop, hv]⟩

/-- Elements of the de-duplicated list come from the input. -/
lemma mem_of_mem_dedupeFirst :
    ∀ l seen x, x ∈ dedupeFirst seen l → x ∈ l := by
  intro l
  induction l with
  | nil => intro seen x h; simp [dedupeFirst] at h
  | cons a rest ih =>
    intro seen x h
    by_cases ha : a ∈ seen
    · simp only [dedupeFirst, if_pos ha] at h
      exact List.mem_cons_of_mem _ (ih seen x h)
    · simp only [dedupeFirst, if_neg ha] at h
      rcases List.mem_cons.mp h with h1 | h1
      · rw [h1]; simp
      · exact List.mem_cons_of_mem _ (ih (a :: seen) x h1)

/-- Preserved elements appear in the de-duplicated list. -/
lemma mem_dedupeFirst_of_mem :
    ∀ l seen x, x ∈ l → x ∉ seen → x ∈ dedupeFirst seen l := by
  intro l
  induction l with
  | nil => intro seen x h; simp at h
  | cons a rest ih =>
    intro seen x hx hns
    by_cases ha : a ∈ seen
    · have hxr : x ∈ rest := by
        rcases List.mem_cons.mp hx with h1 | h1
        · exact absurd (h1 ▸ ha) hns
        · exact h1
      simpa [dedupeFirst, if_pos ha] using ih seen x hxr hns
    · simp only [dedupeFirst, if_neg ha]
      by_cases hax : x = a
      · rw [hax]; simp
      · have hxr : x ∈ rest := by
          rcases List.mem_cons.mp hx with h1 | h1
          · exact absurd h1 hax
          · exact h1
        have : x ∉ a :: seen := by
          simp only [List.mem_cons]
          rintro (h1 | h1)
          · exact hax h1
          · exact hns h1
        exact List.mem_cons_of_mem _ (ih (a :: seen) x hxr this)

/-- The de-duplicated list has no duplicates and avoids the seen set. -/
lemma dedupeFirst_nodup :
    ∀ l seen, (dedupeFirst seen l).Nodup ∧ ∀ x ∈ dedupeFirst seen l, x ∉ seen := by
  intro l
  induction l with
  | nil => intro seen; simp [dedupeFirst]
  | cons a rest ih =>
    intro seen
    by_cases ha : a ∈ seen
    · simpa [dedupeFirst, if_pos ha] using ih seen
    · obtain ⟨hnd, hnin⟩ := ih (a :: seen)
      simp only [dedupeFirst, if_neg ha]
      constructor
      · refine List.nodup_cons.mpr ⟨?_, hnd⟩
        intro hmem
        exact hnin a hmem (by simp)
      · intro x hx
        rcases List.mem_cons.mp hx with h1 | h1
        · rw [h1]; exact ha
        · intro hxs
          exact hnin x h1 (List.mem_cons_of_mem _ hxs)

/-- De-duplication is the identity on a duplicate-free list disjoint from
the seen set. -/
lemma dedupeFirst_of_nodup :
    ∀ l seen, l.Nodup → (∀ x ∈ l, x ∉ seen) → dedupeFirst seen l = l := by
  intro l
  induction l with
  | nil => intro seen _ _; rfl
  | cons a rest ih =>
    intro seen hnd hns
    obtain ⟨hna, hndr⟩ := List.nodup_cons.mp hnd
    have ha : a ∉ seen := hns a (by simp)
    simp only [dedupeFirst, if_neg ha]
    congr 1
    refine ih (a :: seen) hndr ?_
    intro x hx
    simp only [List.mem_cons]
    rintro (h1 | h1)
    · exact hna (h1 ▸ hx)
    · exact hns x (List.mem_cons_of_mem _ hx) h1

/-- Filtering by a value-based predicate commutes with keeping first
occurrences. -/
lemma filter_keepFirsts :
    ∀ (l : List String) (q : String → Bool),
      (keepFirsts l).filter q = keepFirsts (l.filter q) := by
  intro l
  induction l with
  | nil => intro q; rfl
  | cons x xs ih =>
    intro q
    cases hq : q x with
    | true =>
      have h1 : List.filter q (x :: xs) = x :: xs.filter q := by
        simp [List.filter_cons, hq]
      have h2 : ∀ y : String, (q y && decide (y ≠ x)) = (decide (y ≠ x) && q y) :=
        fun y => Bool.and_comm _ _
      simp only [keepFirsts, h1, List.filter_cons, hq, List.filter_filter]
      rw [funext h2, ← List.filter_filter, ih q]
      simp
    | false =>
      have h1 : List.filter q (x :: xs) = xs.filter q := by
        simp [List.filter_cons, hq]
      have h2 : ∀ y : String, (q y && decide (y ≠ x)) = q y := by
        intro y
        by_cases hy : y = x
        · rw [hy, hq]; rfl
        · simp [hy]
      simp only [keepFirsts, h1, List.filter_cons, hq, List.filter_filter]
      rw [funext h2, ih q]
      simp

/-- The seen-set loop of the source equals the spec-side first-occurrence
description, relative to the names already seen. -/
lemma dedupeFirst_eq_keepFirsts :
    ∀ l seen, dedupeFirst seen l =
      keepFirsts (l.filter (fun y => decide (y ∉ seen))) := by
  intro l
  induction l with
  | nil => intro seen; rfl
  | cons a rest ih =>
    intro seen
    by_cases ha : a ∈ seen
    · have h2 : List.filter (fun y => decide (y ∉ seen)) (a :: rest)
          = List.filter (fun y => decide (y ∉ seen)) rest := by
        simp [List.filter_cons, ha]
      simp only [dedupeFirst, if_pos ha, h2]
      exact ih seen
    · have h2 : List.filter (fun y => decide (y ∉ seen)) (a :: rest)
          = a :: List.filter (fun y => decide (y ∉ seen)) rest := by
        simp [List.filter_cons, ha]
      have hf : ∀ y : String,
          (decide (y ≠ a) && decide (y ∉ seen)) = decide (y ∉ a :: seen) := by
        intro y
        by_cases hy1 : y = a <;> by_cases hy2 : y ∈ seen <;> simp [hy1, hy2]
      simp only [dedupeFirst, if_neg ha, h2, keepFirsts]
      rw [filter_keepFirsts, List.filter_filter, funext hf, ih (a :: seen)]

/-- Mapping a function that fixes every element of a list is the identity. -/
lemma map_resolveMarket_fixed :
    ∀ l : List String, (∀ x ∈ l, resolveMarket x = x) →
      l.map resolveMarket = l := by
  intro l
  induction l with
  | nil => intro _; rfl
  | cons a rest ih =>
    intro h
    simp [h a (by simp), ih (fun x hx => h x (by simp [hx]))]

/-- Unfolding `_normalize_markets` when validation succeeds. -/
lemma normalize_markets_ok (ms norm : List String)
    (h : normalizeLoop ms = .ok norm) :
    normalize_markets ms = .ok (dedupeFirst [] norm) := by
  unfold normalize_markets
  rw [h]

/-- Unfolding `_normalize_markets` when validation fails. -/
lemma normalize_markets_error (ms : List String) (e : String)
    (h : normalizeLoop ms = .error e) :
    normalize_markets ms = .error e := by
  unfold normalize_markets
  rw [h]

/-! ## Claims C2, C3, C4, C10 -/

/-- Claim C2: for every requested market list containing only valid keys
after alias mapping, `_normalize_markets` returns the list with each name
stripped of surrounding whitespace and alias-resolved (`resolveMarket`),
and duplicates removed while preserving first-occurrence order
(`keepFirsts`). -/
theorem c2_normalize_markets_valid (ms : List String)
    (h : ∀ m ∈ ms, resolveMarket m ∈ VALID_PLAYER_MARKETS) :
    normalize_markets ms = .ok (keepFirsts (ms.map resolveMarket)) := by
  have h1 := normalizeLoop_ok_of_valid ms h
  have h2 := dedupeFirst_eq_keepFirsts (ms.map resolveMarket) []
  have h3 : (ms.map resolveMarket).filter
      (fun y => decide (y ∉ ([] : List String))) = ms.map resolveMarket := by
    simp
  rw [normalize_markets_ok ms _ h1, h2, h3]

theorem c2_witness :
    normalize_markets ["rush_yds", "player_rush_yds"] = .ok ["player_rush_yds"] :=
  (c2_normalize_markets_valid ["rush_yds", "player_rush_yds"] (by decide)).trans
    (by decide)

/-- Claim C10: `_normalize_markets` is idempotent — whenever it succeeds,
its output normalizes to itself; equivalently the output has no
duplicates and consists only of canonical keys of the whitelist. -/
theorem c10_normalize_markets_idempotent (ms out : List String)
    (h : normalize_markets ms = .ok out) :
    normalize_markets out = .ok out ∧ out.Nodup ∧
      ∀ m ∈ out, m ∈ VALID_PLAYER_MARKETS := by
  unfold normalize_markets at h
  cases hl : normalizeLoop ms with
  | error e => rw [hl] at h; cases h
  | ok norm =>
    rw [hl] at h
    cases h
    obtain ⟨hnd, -⟩ := dedupeFirst_nodup norm []
    have hvalid : ∀ m ∈ dedupeFirst [] norm, m ∈ VALID_PLAYER_MARKETS :=
      fun m hm =>
        normalizeLoop_mem_valid ms norm hl m (mem_of_mem_dedupeFirst norm [] m hm)
    refine ⟨?_, hnd, hvalid⟩
    have hv2 : ∀ m ∈ dedupeFirst [] norm,
        resolveMarket m ∈ VALID_PLAYER_MARKETS := by
      intro m hm
      rw [resolveMarket_fixed m (hvalid m hm)]
      exact hvalid m hm
    have h2 := normalizeLoop_ok_of_valid _ hv2
    rw [map_resolveMarket_fixed _
      (fun x hx => resolveMarket_fixed x (hvalid x hx))] at h2
    rw [normalize_markets_ok _ _ h2,
      dedupeFirst_of_nodup _ [] hnd (by simp)]

theorem c10_witness :
    normalize_markets ["player_rush_yds"] = .ok ["player_rush_yds"] ∧
    List.Nodup ["player_rush_yds"] ∧
    ∀ m ∈ ["player_rush_yds"], m ∈ VALID_PLAYER_MARKETS :=
  c10_normalize_markets_idempotent ["rush_yds", "rush_yds"] ["player_rush_yds"]
    (by decide)

/-- Claim C3: a requested list containing a name that is invalid after
alias resolution makes `fetch_nfl_props` raise `ValueError` before any
HTTP request is attempted (the request flag is `false`), and the error
message enumerates the whole whitelist (`sortedValidMarkets` is a
permutation of `VALID_PLAYER_MARKETS`). -/
theorem c3_invalid_market_rejected (key : Option String) (ms : List String)
    (r : ApiResponse) (hkey : keyMissing key = false)
    (hbad : ∃ m ∈ ms, resolveMarket m ∉ VALID_PLAYER_MARKETS) :
    (∃ b ∈ ms, resolveMarket b ∉ VALID_PLAYER_MARKETS ∧
        fetch_nfl_props key (some ms) r =
          (.error (.valueError (unsupportedMsg (resolveMarket b))), false)) ∧
    sortedValidMarkets.Perm VALID_PLAYER_MARKETS := by
  obtain ⟨b, hb, hnv, herr⟩ := normalizeLoop_error_of_bad ms hbad
  refine ⟨⟨b, hb, hnv, ?_⟩, by decide⟩
  have hnm := normalize_markets_error ms _ herr
  simp [fetch_nfl_props, hkey, hnm]

theorem c3_witness :
    (∃ b ∈ ["bogus"], resolveMarket b ∉ VALID_PLAYER_MARKETS ∧
        fetch_nfl_props (some "k") (some ["bogus"]) respNotFound =
          (.error (.valueError (unsupportedMsg (resolveMarket b))), false)) ∧
    sortedValidMarkets.Perm VALID_PLAYER_MARKETS :=
  c3_invalid_market_rejected (some "k") ["bogus"] respNotFound (by decide)
    (by decide)

/-- Claim C4: with the API key unset or empty, every public fetch function
fails with the `EnvironmentError` message and never reaches the HTTP
request (the request flag is `false`). -/
theorem c4_missing_key_no_request (key : Option String)
    (ms : Option (List String)) (r : ApiResponse)
    (hkey : keyMissing key = true) :
    fetch_nfl_props key ms r = (.error (.configError envKeyMsg), false) ∧
    get_nfl_game_totals key r = (.error (.configError envKeyMsg), false) ∧
    get_nfl_moneylines key r = (.error (.configError envKeyMsg), false) := by
  simp [fetch_nfl_props, get_nfl_game_totals, get_nfl_moneylines, hkey]

theorem c4_witness :
    fetch_nfl_props none none respNotFound =
      (.error (.configError envKeyMsg), false) ∧
    get_nfl_game_totals none respNotFound =
      (.error (.configError envKeyMsg), false) ∧
    get_nfl_moneylines none respNotFound =
      (.error (.configError envKeyMsg), false) :=
  c4_missing_key_no_request none none respNotFound rfl

/-! ## Claims C5 and C7 -/

/-- Claim C5 as stated is false: the code raises for any status other
than 200, so the 201 response — inside the 2xx range — also raises a
`RuntimeError` carrying the status and the parsed JSON detail. -/
theorem c5_counterexample :
    (200 ≤ respCreated.status ∧ respCreated.status < 300) ∧
    get_nfl_game_totals (some "k") respCreated =
      (.error (.httpError 201 "created detail"), true) := by decide

/-- Claim C5 (amended): for each fetch function, with the key present (and
the markets valid for `fetch_nfl_props`), a non-200 response — and only a
non-200 response — raises an error carrying the HTTP status and the
provider error detail (parsed JSON body when parseable, raw text
otherwise). -/
theorem c5_http_error_iff_non200 (key : Option String) (r : ApiResponse)
    (ms msOk : List String) (hkey : keyMissing key = false)
    (hms : normalize_markets ms = .ok msOk) :
    (r.status ≠ 200 →
      get_nfl_game_totals key r =
        (.error (.httpError r.status (respDetail r)), true) ∧
      get_nfl_moneylines key r =
        (.error (.httpError r.status (respDetail r)), true) ∧
      fetch_nfl_props key (some ms) r =
        (.error (.httpError r.status (respDetail r)), true)) ∧
    (r.status = 200 →
      get_nfl_game_totals key r = (.ok r.games, true) ∧
      get_nfl_moneylines key r = (.ok r.games, true) ∧
      fetch_nfl_props key (some ms) r = (.ok r.games, true)) := by
  constructor <;> intro hst <;>
    simp [get_nfl_game_totals, get_nfl_moneylines, fetch_nfl_props,
      hkey, hst, hms]

theorem c5_witness :
    get_nfl_game_totals (some "k") respNotFound =
      (.error (.httpError 404 "Not Found"), true) :=
  ((c5_http_error_iff_non200 (some "k") respNotFound ["player_rush_yds"]
      ["player_rush_yds"] (by decide) (by decide)).1 (by decide)).1

/-- Claim C7: the Variant A policy (spec-modelled, it lives outside
`src/`) classifies total=48 with over=-110, under=-110 as "High";
total=40 with over=-105, under=-120 as "Low"; and total=44 with neutral
prices as "Neutral". -/
theorem c7_variantA_examples :
    classify_environment_variantA 48 (-110) (-110) = "High" ∧
    classify_environment_variantA 40 (-105) (-120) = "Low" ∧
    classify_environment_variantA 44 (-110) (-110) = "Neutral" := by
  refine ⟨?_, ?_, ?_⟩
  · unfold classify_environment_variantA
    rw [if_pos (by norm_num : (48 : ℚ) ≥ (95 : ℚ) / 2 ∧ (-110 : Int) ≤ -110)]
  · unfold classify_environment_variantA
    rw [if_neg (by norm_num : ¬((40 : ℚ) ≥ (95 : ℚ) / 2 ∧ (-105 : Int) ≤ -120)),
      if_pos (by norm_num : (40 : ℚ) ≤ (83 : ℚ) / 2 ∧ (-120 : Int) ≤ -105)]
  · unfold classify_environment_variantA
    rw [if_neg (by norm_num : ¬((44 : ℚ) ≥ (95 : ℚ) / 2 ∧ (-110 : Int) ≤ -110)),
      if_neg (by norm_num : ¬((44 : ℚ) ≤ (83 : ℚ) / 2 ∧ (-110 : Int) ≤ -110))]

/-! ## Lemmas on the environment-map builder -/

/-- A successful classification labels the record exactly by the spec's
Variant B rule applied to the record's own fields, and carries the
moneyline info through unchanged. -/
lemma classifyVals_ok (t : ℚ) (o u : Option Int) (mi : Option MoneylineInfo)
    (r : EnvRecord) (h : classifyVals t o u mi = .ok r) :
    r.environment = classify_environment_variantB r.total r.over_odds r.under_odds ∧
    r.moneyline = mi := by
  unfold classifyVals at h
  split at h
  next h50 =>
    cases h
    refine ⟨?_, rfl⟩
    show "High Scoring" = classify_environment_variantB t o u
    unfold classify_environment_variantB
    rw [if_pos (Or.inl h50)]
  next h50 =>
    split at h
    next => cases h
    next ov =>
      split at h
      next hov =>
        cases h
        refine ⟨?_, rfl⟩
        show "High Scoring" = classify_environment_variantB t (some ov) u
        unfold classify_environment_variantB
        rw [if_pos (Or.inr ⟨by simp [specOddsLe, hov.1], hov.2⟩)]
      next hov =>
        have hBneg :
            ¬(t ≥ 50 ∨ (specOddsLe (some ov) (-115) = true ∧ t ≥ 47)) := by
          rintro (hx | ⟨hx1, hx2⟩)
          · exact h50 hx
          · exact hov ⟨by simpa [specOddsLe] using hx1, hx2⟩
        split at h
        next h42 =>
          cases h
          refine ⟨?_, rfl⟩
          show "Low Scoring" = classify_environment_variantB t (some ov) u
          unfold classify_environment_variantB
          rw [if_neg hBneg, if_pos (Or.inl h42)]
        next h42 =>
          split at h
          next => cases h
          next un =>
            split at h
            next hun =>
              cases h
              refine ⟨?_, rfl⟩
              show "Low Scoring" = classify_environment_variantB t (some ov) (some un)
              unfold classify_environment_variantB
              rw [if_neg hBneg,
                if_pos (Or.inr ⟨by simp [specOddsLe, hun.1], hun.2⟩)]
            next hun =>
              cases h
              refine ⟨?_, rfl⟩
              show "Neutral" = classify_environment_variantB t (some ov) (some un)
              unfold classify_environment_variantB
              rw [if_neg hBneg, if_neg ?_]
              rintro (hx | ⟨hx1, hx2⟩)
              · exact h42 hx
              · exact hun ⟨by simpa [specOddsLe] using hx1, hx2⟩

/-- Corollary of `classifyVals_ok` for `classifyMatchup`. -/
lemma classifyMatchup_ok (ti : Option TotalsEntry) (mi : Option MoneylineInfo)
    (r : EnvRecord) (h : classifyMatchup ti mi = .ok r) :
    r.environment = classify_environment_variantB r.total r.over_odds r.under_odds ∧
    r.moneyline = mi :=
  classifyVals_ok _ _ _ _ _ h

/-- A matchup with no totals entry classifies with all-zero defaults, and
`0 ≤ 42` forces the "Low Scoring" label. -/
lemma classifyMatchup_none (mi : Option MoneylineInfo) :
    classifyMatchup none mi = .ok ⟨"Low Scoring", 0, some 0, some 0, mi⟩ := by
  unfold classifyMatchup classifyVals
  rw [if_neg (by norm_num : ¬(0 : ℚ) ≥ 50)]
  show (if (0 : Int) ≤ -115 ∧ (0 : ℚ) ≥ 47 then _ else _) = _
  rw [if_neg (by norm_num : ¬((0 : Int) ≤ -115 ∧ (0 : ℚ) ≥ 47)),
    if_pos (by norm_num : (0 : ℚ) ≤ 42)]

/-- A successful assoc-list lookup locates a stored pair. -/
lemma lookup_mem {β : Type} :
    ∀ (l : List (String × β)) (k : String) (v : β),
      l.lookup k = some v → (k, v) ∈ l := by
  intro l
  induction l with
  | nil => intro k v h; simp [List.lookup] at h
  | cons p rest ih =>
    intro k v h
    obtain ⟨a, b⟩ := p
    simp only [List.lookup] at h
    cases hbeq : (k == a) with
    | true =>
      rw [hbeq] at h
      cases h
      have : k = a := eq_of_beq hbeq
      rw [this]
      exact List.mem_cons_self _ _
    | false =>
      rw [hbeq] at h
      exact List.mem_cons_of_mem _ (ih k v h)

/-- Members of a dict after assignment: an old pair, or the new one. -/
lemma insertEntry_mem {α : Type} (l : List (String × α)) (k : String) (v : α)
    (p : String × α) (h : p ∈ insertEntry l k v) : p ∈ l ∨ p = (k, v) := by
  unfold insertEntry at h
  split at h
  · rcases List.mem_map.mp h with ⟨q, hq, hpq⟩
    by_cases hqk : q.1 = k
    · right
      rw [← hpq, if_pos hqk]
    · left
      rw [← hpq, if_neg hqk]
      exact hq
  · rcases List.mem_append.mp h with h1 | h1
    · exact Or.inl h1
    · right
      simpa using h1

/-- Every entry written by the moneyline loop has its favored team chosen
by the strictly-lower-price rule. -/
lemma mlStep_inv (acc : List (String × MoneylineInfo)) (g : Game)
    (h : ∀ p ∈ acc, p.2.favored_team =
      if p.2.home_odds < p.2.away_odds then p.2.home_team else p.2.away_team) :
    ∀ p ∈ mlStep acc g, p.2.favored_team =
      if p.2.home_odds < p.2.away_odds then p.2.home_team else p.2.away_team := by
  intro p hp
  unfold mlStep at hp
  split at hp
  next a hm =>
    rcases insertEntry_mem _ _ _ _ hp with h1 | h1
    · exact h p h1
    · rw [h1]
  next => exact h p hp

/-- The favored-team rule holds for every entry of `moneylines_lookup`. -/
lemma moneylinesLookup_inv :
    ∀ (games : List Game) (acc : List (String × MoneylineInfo)),
      (∀ p ∈ acc, p.2.favored_team =
        if p.2.home_odds < p.2.away_odds then p.2.home_team else p.2.away_team) →
      ∀ p ∈ List.foldl mlStep acc games, p.2.favored_team =
        if p.2.home_odds < p.2.away_odds then p.2.home_team else p.2.away_team := by
  intro games
  induction games with
  | nil => intro acc h; simpa using h
  | cons g rest ih =>
    intro acc h
    simp only [List.foldl_cons]
    exact ih (mlStep acc g) (mlStep_inv acc g h)

/-- Every record returned by the final loop is the classification of its
own matchup key. -/
lemma envMapLoop_ok_mem (tl : List (String × TotalsEntry))
    (ml : List (String × MoneylineInfo)) :
    ∀ (ks : List String) (m : List (String × EnvRecord)),
      envMapLoop tl ml ks = .ok m →
      ∀ k r, (k, r) ∈ m →
        classifyMatchup (tl.lookup k) (ml.lookup k) = .ok r := by
  intro ks
  induction ks with
  | nil =>
    intro m h k r hm
    cases h
    simp at hm
  | cons a rest ih =>
    intro m h k r hm
    simp only [envMapLoop] at h
    split at h
    next => cases h
    next r0 hc =>
      split at h
      next => cases h
      next tail htail =>
        cases h
        rcases List.mem_cons.mp hm with h1 | h1
        · injection h1 with hk hr
          rw [hk, hr]
          exact hc
        · exact ih tail htail k r h1

/-- The final loop produces one record for every requested key. -/
lemma envMapLoop_ok_key (tl : List (String × TotalsEntry))
    (ml : List (String × MoneylineInfo)) :
    ∀ (ks : List String) (m : List (String × EnvRecord)),
      envMapLoop tl ml ks = .ok m →
      ∀ k ∈ ks, ∃ r, (k, r) ∈ m := by
  intro ks
  induction ks with
  | nil => intro m _ k hk; simp at hk
  | cons a rest ih =>
    intro m h k hk
    simp only [envMapLoop] at h
    split at h
    next => cases h
    next r0 hc =>
      split at h
      next => cases h
      next tail htail =>
        cases h
        rcases List.mem_cons.mp hk with h1 | h1
        · exact ⟨r0, by rw [h1]; simp⟩
        · obtain ⟨r, hr⟩ := ih tail htail k h1
          exact ⟨r, List.mem_cons_of_mem _ hr⟩

/-- A successful build is returned unchanged. -/
lemma env_map_of_build_ok (key : Option String) (tr mr : ApiResponse)
    (m : List (String × EnvRecord))
    (hb : buildEnvironmentMap key tr mr = .ok m) :
    get_nfl_game_environment_map key tr mr = m := by
  unfold get_nfl_game_environment_map
  rw [hb]

/-- A failed build yields the empty map. -/
lemma env_map_of_build_error (key : Option String) (tr mr : ApiResponse)
    (e : Unit) (hb : buildEnvironmentMap key tr mr = .error e) :
    get_nfl_game_environment_map key tr mr = [] := by
  unfold get_nfl_game_environment_map
  rw [hb]

/-- Unpacking a successful build into its two data pulls and final loop. -/
lemma build_ok_elim (key : Option String) (tr mr : ApiResponse)
    (m : List (String × EnvRecord))
    (hb : buildEnvironmentMap key tr mr = .ok m) :
    ∃ td md, (get_nfl_game_totals key tr).1 = .ok td ∧
      (get_nfl_moneylines key mr).1 = .ok md ∧
      envMapLoop (totalsLookup td) (moneylinesLookup md)
        (dedupeFirst [] ((totalsLookup td).map Prod.fst ++
          (moneylinesLookup md).map Prod.fst)) = .ok m := by
  unfold buildEnvironmentMap at hb
  split at hb
  next => cases hb
  next td htd =>
    split at hb
    next => cases hb
    next md hmd => exact ⟨td, md, htd, hmd, hb⟩

/-- Every record of the returned environment map is the classification of
its own matchup key against the two lookup tables. -/
lemma mem_env_map (key : Option String) (tr mr : ApiResponse)
    (k : String) (r : EnvRecord)
    (hmem : (k, r) ∈ get_nfl_game_environment_map key tr mr) :
    ∃ td md, (get_nfl_game_totals key tr).1 = .ok td ∧
      (get_nfl_moneylines key mr).1 = .ok md ∧
      classifyMatchup ((totalsLookup td).lookup k)
        ((moneylinesLookup md).lookup k) = .ok r := by
  cases hb : buildEnvironmentMap key tr mr with
  | error e =>
    rw [env_map_of_build_error key tr mr e hb] at hmem
    simp at hmem
  | ok m =>
    rw [env_map_of_build_ok key tr mr m hb] at hmem
    obtain ⟨td, md, h1, h2, hloop⟩ := build_ok_elim key tr mr m hb
    exact ⟨td, md, h1, h2, envMapLoop_ok_mem _ _ _ _ hloop k r hmem⟩

/-! ## Claims C1, C6, C8, C9 -/

/-- Claim C1: every matchup record produced by
`get_nfl_game_environment_map` carries the environment label computed by
the Variant B rule (High tested first) from the record's own total and
over/under prices. -/
theorem c1_environment_variantB (key : Option String) (tr mr : ApiResponse)
    (k : String) (r : EnvRecord)
    (hmem : (k, r) ∈ get_nfl_game_environment_map key tr mr) :
    r.environment =
      classify_environment_variantB r.total r.over_odds r.under_odds := by
  obtain ⟨td, md, -, -, hc⟩ := mem_env_map key tr mr k r hmem
  exact (classifyMatchup_ok _ _ _ hc).1

theorem c1_witness :
    sampleHighRecord.environment =
      classify_environment_variantB sampleHighRecord.total
        sampleHighRecord.over_odds sampleHighRecord.under_odds :=
  c1_environment_variantB (some "k") respTotalsOk respMoneylineOk
    sampleMatchup sampleHighRecord (by decide)

/-- Claim C6: in every record of the environment map that carries
moneyline data, the favored team is the side with the numerically lower
American-odds price; the home team is favored exactly when its price is
strictly lower. -/
theorem c6_favored_lower_price (key : Option String) (tr mr : ApiResponse)
    (k : String) (r : EnvRecord) (info : MoneylineInfo)
    (hmem : (k, r) ∈ get_nfl_game_environment_map key tr mr)
    (hinfo : r.moneyline = some info) :
    info.favored_team =
      if info.home_odds < info.away_odds then info.home_team
      else info.away_team := by
  obtain ⟨td, md, -, -, hc⟩ := mem_env_map key tr mr k r hmem
  have hmi := (classifyMatchup_ok _ _ _ hc).2
  have hlk : (moneylinesLookup md).lookup k = some info :=
    hmi.symm.trans hinfo
  exact moneylinesLookup_inv md [] (by simp) (k, info)
    (lookup_mem (moneylinesLookup md) k info hlk)

theorem c6_witness :
    sampleMLInfo.favored_team =
      if sampleMLInfo.home_odds < sampleMLInfo.away_odds then
        sampleMLInfo.home_team
      else sampleMLInfo.away_team :=
  c6_favored_lower_price (some "k") respTotalsOk respMoneylineOk
    sampleMatchup sampleHighRecord sampleMLInfo (by decide) rfl

/-- Claim C8 as stated is false: a moneyline-only matchup still gets a
record with all totals fields defaulted to zero, but its environment
label is "Low Scoring" (because the default total 0 satisfies
`total <= 42`), not "Neutral". -/
theorem c8_counterexample :
    get_nfl_game_environment_map (some "k") respNoGames respMoneylineOk =
      [(sampleMatchup, sampleDefaultRecord)] ∧
    (totalsLookup respNoGames.games).lookup sampleMatchup = none ∧
    sampleDefaultRecord.total = 0 ∧
    sampleDefaultRecord.over_odds = some 0 ∧
    sampleDefaultRecord.under_odds = some 0 ∧
    sampleDefaultRecord.environment ≠ "Neutral" := by decide

/-- Claim C8 (amended): a matchup present in either lookup table still
yields a record when the build succeeds; a matchup missing from the
totals table gets total = 0, over/under prices 0 and — since 0 ≤ 42 —
the "Low Scoring" label; a matchup missing from the moneyline table gets
no moneyline fields. -/
theorem c8_single_lookup_defaults (key : Option String) (tr mr : ApiResponse)
    (td md : List Game) (k : String) (m : List (String × EnvRecord))
    (htd : (get_nfl_game_totals key tr).1 = .ok td)
    (hmd : (get_nfl_moneylines key mr).1 = .ok md)
    (hb : buildEnvironmentMap key tr mr = .ok m)
    (hk : k ∈ (totalsLookup td).map Prod.fst ∨
      k ∈ (moneylinesLookup md).map Prod.fst) :
    ∃ r, (k, r) ∈ get_nfl_game_environment_map key tr mr ∧
      ((totalsLookup td).lookup k = none →
        r.total = 0 ∧ r.over_odds = some 0 ∧ r.under_odds = some 0 ∧
        r.environment = "Low Scoring") ∧
      ((moneylinesLookup md).lookup k = none → r.moneyline = none) := by
  obtain ⟨td2, md2, h1, h2, hloop⟩ := build_ok_elim key tr mr m hb
  have e1 : td2 = td := by
    have := h1.symm.trans htd
    injection this
  have e2 : md2 = md := by
    have := h2.symm.trans hmd
    injection this
  rw [e1, e2] at hloop
  have hkeys : k ∈ dedupeFirst []
      ((totalsLookup td).map Prod.fst ++ (moneylinesLookup md).map Prod.fst) :=
    mem_dedupeFirst_of_mem _ [] k (List.mem_append.mpr hk) (by simp)
  obtain ⟨r, hr⟩ := envMapLoop_ok_key _ _ _ _ hloop k hkeys
  have hc := envMapLoop_ok_mem _ _ _ _ hloop k r hr
  refine ⟨r, ?_, ?_, ?_⟩
  · rw [env_map_of_build_ok key tr mr m hb]
    exact hr
  · intro hnone
    rw [hnone, classifyMatchup_none] at hc
    injection hc with h
    rw [← h]
    exact ⟨rfl, rfl, rfl, rfl⟩
  · intro hnone
    rw [(classifyMatchup_ok _ _ _ hc).2, hnone]

theorem c8_witness :
    ∃ r, (sampleMatchup, r) ∈
        get_nfl_game_environment_map (some "k") respNoGames respMoneylineOk ∧
      ((totalsLookup []).lookup sampleMatchup = none →
        r.total = 0 ∧ r.over_odds = some 0 ∧ r.under_odds = some 0 ∧
        r.environment = "Low Scoring") ∧
      ((moneylinesLookup [sampleMoneylineGame]).lookup sampleMatchup = none →
        r.moneyline = none) :=
  c8_single_lookup_defaults (some "k") respNoGames respMoneylineOk
    [] [sampleMoneylineGame] sampleMatchup
    [(sampleMatchup, sampleDefaultRecord)]
    (by decide) (by decide) (by decide) (Or.inr (by decide))

/-- Claim C9: any exception during the environment-map build — including
a missing key or a non-200 response on either of the two data pulls — is
caught at the top level and the function returns the empty map instead of
propagating. -/
theorem c9_exceptions_swallowed (key : Option String) (tr mr : ApiResponse)
    (h : (∃ e, buildEnvironmentMap key tr mr = .error e) ∨
      keyMissing key = true ∨ tr.status ≠ 200 ∨ mr.status ≠ 200) :
    get_nfl_game_environment_map key tr mr = [] := by
  have totals_err : keyMissing key = true ∨ tr.status ≠ 200 →
      ∃ er, (get_nfl_game_totals key tr).1 = .error er := by
    rintro (hkey | hst)
    · exact ⟨.configError envKeyMsg, by simp [get_nfl_game_totals, hkey]⟩
    · by_cases hkey : keyMissing key = true
      · exact ⟨.configError envKeyMsg, by simp [get_nfl_game_totals, hkey]⟩
      · exact ⟨.httpError tr.status (respDetail tr),
          by simp [get_nfl_game_totals, hkey, hst]⟩
  rcases h with ⟨e, he⟩ | hkey | hst | hst
  · exact env_map_of_build_error key tr mr e he
  · obtain ⟨er, h1⟩ := totals_err (Or.inl hkey)
    refine env_map_of_build_error key tr mr () ?_
    unfold buildEnvironmentMap
    rw [h1]
  · obtain ⟨er, h1⟩ := totals_err (Or.inr hst)
    refine env_map_of_build_error key tr mr () ?_
    unfold buildEnvironmentMap
    rw [h1]
  · have ml_err : ∃ er, (get_nfl_moneylines key mr).1 = .error er := by
      by_cases hkey : keyMissing key = true
      · exact ⟨.configError envKeyMsg, by simp [get_nfl_moneylines, hkey]⟩
      · exact ⟨.httpError mr.status (respDetail mr),
          by simp [get_nfl_moneylines, hkey, hst]⟩
    obtain ⟨er, h2⟩ := ml_err
    refine env_map_of_build_error key tr mr () ?_
    unfold buildEnvironmentMap
    cases h1 : (get_nfl_game_totals key tr).1 with
    | error er2 => rfl
    | ok td => rw [h2]

theorem c9_witness :
    get_nfl_game_environment_map none respNotFound respNotFound = [] :=
  c9_exceptions_swallowed none respNotFound respNotFound (Or.inr (Or.inl rfl))
